import Mathlib

set_option maxHeartbeats 1000000

/-!
Verification development for the chat/reservation widget
(`src/web/src/components/ChatWidget.tsx`).

JavaScript strings are modelled as `List Char` (`Str`), JSON values as the
inductive `JsonVal`, and the widget's React state as the record `ChatState`.
Stateful handlers from the source (`handleToolEvent`, `processLine`,
`handleReservationDecision`, the stream-reading loop) become explicit state
transformers.  Floating point numbers and JSON arrays never occur in the
protocol handled by this widget; JSON numbers are modelled by their integer
part and array literals are modelled as a parse failure.
-/

/-- JavaScript strings, modelled as their list of unicode scalar values. -/
abbrev Str := List Char

/-- Whitespace stripped by `String.prototype.trim`. -/
def jsIsWs (c : Char) : Bool :=
  c = ' ' ∨ c = '\t' ∨ c = '\n' ∨ c = '\r' ∨ c = '\x0b' ∨ c = '\x0c'

/-- JavaScript `String.prototype.trim`. -/
def trimChars (s : Str) : Str :=
  ((s.dropWhile jsIsWs).reverse.dropWhile jsIsWs).reverse

/-- Whitespace accepted between tokens by `JSON.parse`. -/
def jsonWs (c : Char) : Bool :=
  c = ' ' ∨ c = '\t' ∨ c = '\n' ∨ c = '\r'

/-- Skip insignificant whitespace in JSON input. -/
def skipWs (s : Str) : Str := s.dropWhile jsonWs

/-- JSON values as produced by `JSON.parse` on this protocol
(objects, strings, booleans, null, integers). -/
inductive JsonVal where
  | null : JsonVal
  | bool (b : Bool) : JsonVal
  | num (n : Int) : JsonVal
  | str (s : Str) : JsonVal
  | obj (fields : List (Str × JsonVal)) : JsonVal

/-- Lookup of an object key among a field list (first match). -/
def assocLookup (k : Str) : List (Str × JsonVal) → Option JsonVal
  | [] => none
  | (k2, v) :: rest => if k2 = k then some v else assocLookup k rest

/-- JavaScript property read `j[k]`: `some` only when `j` is an object
carrying the key, `none` models `undefined`. -/
def getField (j : JsonVal) (k : Str) : Option JsonVal :=
  match j with
  | .obj fs => assocLookup k fs
  | _ => none

/-- Insert a key into a field list, overwriting a duplicate
(`JSON.parse` keeps the last occurrence of a repeated key). -/
def insertField (fs : List (Str × JsonVal)) (k : Str) (v : JsonVal) :
    List (Str × JsonVal) :=
  (fs.filter (fun kv => kv.1 ≠ k)) ++ [(k, v)]

/-- JavaScript truthiness (`Boolean(v)`). -/
def truthy : JsonVal → Bool
  | .null => false
  | .bool b => b
  | .num n => n ≠ 0
  | .str s => s ≠ []
  | .obj _ => true

/-- JavaScript `String(v)` conversion. -/
def jsToString : JsonVal → Str
  | .null => "null".data
  | .bool true => "true".data
  | .bool false => "false".data
  | .num n => (toString n).data
  | .str s => s
  | .obj _ => "[object Object]".data

/-- String coercion of a possibly-absent value, as in `"" + v`
(`undefined` prints as the text undefined). -/
def jsToStringU : Option JsonVal → Str
  | none => "undefined".data
  | some v => jsToString v

/-- Nullish coalescing on a property read: `j[k] ?? d`. -/
def fieldOr (j : JsonVal) (k : Str) (d : JsonVal) : JsonVal :=
  match getField j k with
  | none => d
  | some .null => d
  | some v => v

/-- The pattern `typeof j === 'object' && j !== null && k in j ? Boolean(j[k]) : false`. -/
def boolField (j : JsonVal) (k : Str) : Bool :=
  match getField j k with
  | some v => truthy v
  | none => false

/-- The pattern `typeof j[k] === 'string' ? j[k] : null`. -/
def strField (j : JsonVal) (k : Str) : Option Str :=
  match getField j k with
  | some (.str s) => some s
  | _ => none

/-- The pattern `String(j[k] ?? '')`. -/
def fieldStr (j : JsonVal) (k : Str) : Str :=
  jsToString (fieldOr j k (.str []))

/-- The pattern `j[k] ? String(j[k]) : undefined`. -/
def fieldOptStr (j : JsonVal) (k : Str) : Option Str :=
  match getField j k with
  | some v => if truthy v then some (jsToString v) else none
  | none => none

/-- Value of one hexadecimal digit. -/
def hexVal (c : Char) : Option Nat :=
  if '0' ≤ c ∧ c ≤ '9' then some (c.toNat - 48)
  else if 'a' ≤ c ∧ c ≤ 'f' then some (c.toNat - 87)
  else if 'A' ≤ c ∧ c ≤ 'F' then some (c.toNat - 70)
  else none

/-- Prepend a decoded character to a string-body parse result. -/
def pushChar (c : Char) : Option (Str × Str) → Option (Str × Str)
  | none => none
  | some (s, rest) => some (c :: s, rest)

/-- Parse the body of a JSON string after the opening quote, handling
escapes; returns the decoded content and the input after the closing quote. -/
def parseStringBody : Str → Option (Str × Str)
  | [] => none
  | '"' :: rest => some ([], rest)
  | '\\' :: '"' :: rest => pushChar '"' (parseStringBody rest)
  | '\\' :: '\\' :: rest => pushChar '\\' (parseStringBody rest)
  | '\\' :: '/' :: rest => pushChar '/' (parseStringBody rest)
  | '\\' :: 'b' :: rest => pushChar '\x08' (parseStringBody rest)
  | '\\' :: 'f' :: rest => pushChar '\x0c' (parseStringBody rest)
  | '\\' :: 'n' :: rest => pushChar '\n' (parseStringBody rest)
  | '\\' :: 'r' :: rest => pushChar '\r' (parseStringBody rest)
  | '\\' :: 't' :: rest => pushChar '\t' (parseStringBody rest)
  | '\\' :: 'u' :: a :: b :: c :: d :: rest =>
    match hexVal a, hexVal b, hexVal c, hexVal d with
    | some ha, some hb, some hc, some hd =>
      pushChar (Char.ofNat (((ha * 16 + hb) * 16 + hc) * 16 + hd)) (parseStringBody rest)
    | _, _, _, _ => none
  | '\\' :: _ => none
  | c :: rest => if c.toNat < 32 then none else pushChar c (parseStringBody rest)

/-- Take a maximal run of decimal digits. -/
def takeDigits (s : Str) : Str × Str :=
  (s.takeWhile Char.isDigit, s.dropWhile Char.isDigit)

/-- Numeric value of a digit run. -/
def digitsToNat (ds : Str) : Nat :=
  ds.foldl (fun n c => n * 10 + (c.toNat - 48)) 0

/-- Parse the exponent tail after an `e` marker: optional sign, then digits. -/
def parseExpTail (s : Str) : Option Str :=
  match s with
  | '+' :: r => let t := takeDigits r; if t.1 = [] then none else some t.2
  | '-' :: r => let t := takeDigits r; if t.1 = [] then none else some t.2
  | r => let t := takeDigits r; if t.1 = [] then none else some t.2

/-- Parse a JSON number; the value is modelled by its integer part
(no claim of this development depends on fractional values). -/
def parseNumber (s : Str) : Option (JsonVal × Str) :=
  let sign : Bool × Str := match s with | '-' :: r => (true, r) | _ => (false, s)
  let intPart := takeDigits sign.2
  if intPart.1 = [] then none
  else
    let afterFrac : Option Str :=
      match intPart.2 with
      | '.' :: r => let t := takeDigits r; if t.1 = [] then none else some t.2
      | r => some r
    match afterFrac with
    | none => none
    | some r2 =>
      let afterExp : Option Str :=
        match r2 with
        | 'e' :: r3 => parseExpTail r3
        | 'E' :: r3 => parseExpTail r3
        | r3 => some r3
      match afterExp with
      | none => none
      | some rest =>
        let n : Int := Int.ofNat (digitsToNat intPart.1)
        some (.num (if sign.1 then -n else n), rest)

mutual

/-- Fuel-indexed recursive-descent JSON value parse (arrays are not part of
this protocol and are rejected). -/
def parseValue : Nat → Str → Option (JsonVal × Str)
  | 0, _ => none
  | Nat.succ fuel, s =>
    match skipWs s with
    | '{' :: rest =>
      match skipWs rest with
      | '}' :: rest2 => some (.obj [], rest2)
      | rest2 => parseMembers fuel rest2 []
    | '"' :: rest =>
      match parseStringBody rest with
      | some (content, rest2) => some (.str content, rest2)
      | none => none
    | 't' :: 'r' :: 'u' :: 'e' :: rest => some (.bool true, rest)
    | 'f' :: 'a' :: 'l' :: 's' :: 'e' :: rest => some (.bool false, rest)
    | 'n' :: 'u' :: 'l' :: 'l' :: rest => some (.null, rest)
    | other => parseNumber other

/-- Parse the members of a JSON object, starting at a key, accumulating
already-seen fields. -/
def parseMembers : Nat → Str → List (Str × JsonVal) → Option (JsonVal × Str)
  | 0, _, _ => none
  | Nat.succ fuel, s, acc =>
    match s with
    | '"' :: rest =>
      match parseStringBody rest with
      | some (key, rest2) =>
        match skipWs rest2 with
        | ':' :: rest3 =>
          match parseValue fuel rest3 with
          | some (v, rest4) =>
            let acc2 := insertField acc key v
            match skipWs rest4 with
            | ',' :: rest5 => parseMembers fuel (skipWs rest5) acc2
            | '}' :: rest5 => some (.obj acc2, rest5)
            | _ => none
          | none => none
        | _ => none
      | none => none
    | _ => none

end

/-- Model of `JSON.parse` restricted to this protocol: parse one value and
require only trailing whitespace after it. -/
def jsonParse (s : Str) : Option JsonVal :=
  match parseValue (s.length + 1) s with
  | some (v, rest) => if skipWs rest = [] then some v else none
  | none => none

/-! ## Chat data model (`src/web/src/types/chat.ts`) -/

/-- Roles of a chat timeline entry. -/
inductive MessageRole where
  | user : MessageRole
  | assistant : MessageRole
  | system : MessageRole
deriving DecidableEq, Repr

/-- The optional `type` tag of a `ChatMessage` (always set where appended). -/
inductive MsgKind where
  | text : MsgKind
  | status : MsgKind
deriving DecidableEq, Repr

/-- One timeline entry; `crypto.randomUUID()` identifiers are modelled by a
counter, `createdAt` is environmental and omitted. -/
structure ChatMessage where
  id : Nat
  role : MessageRole
  content : Str
  kind : MsgKind
deriving DecidableEq, Repr

/-- A reservation proposal extracted from a tool output. -/
structure ReservationProposal where
  resource_id : Str
  start_time : Str
  end_time : Option Str
  reservation_id : Option Str
  note : Option Str
deriving DecidableEq, Repr

/-- The two decision actions. -/
inductive RDAction where
  | confirm : RDAction
  | cancel : RDAction
deriving DecidableEq, Repr

/-- The widget state relevant to the protocol: the timeline, the queued
proposal ref, the pending proposal, the in-flight decision action, and the
per-stream assistant-turn accumulator (`assistantMessageId`,
`assembledContent`); `nextId` feeds the identifier counter. -/
structure ChatState where
  messages : List ChatMessage
  queuedProposal : Option ReservationProposal
  pendingProposal : Option ReservationProposal
  decisionLoading : Option RDAction
  assistantMessageId : Option Nat
  assembledContent : Str
  nextId : Nat
deriving DecidableEq, Repr

/-- JavaScript truthiness of an optional string property. -/
def optStrTruthy : Option Str → Bool
  | none => false
  | some s => s ≠ []

/-- `appendMessage`: append one entry to the timeline. -/
def appendMessage (st : ChatState) (role : MessageRole) (content : Str)
    (kind : MsgKind) : ChatState :=
  { st with
    messages := st.messages ++ [⟨st.nextId, role, content, kind⟩]
    nextId := st.nextId + 1 }

/-- `updateMessageContent`: rewrite the content of the entry with the given id. -/
def updateMessageContent (st : ChatState) (i : Nat) (content : Str) : ChatState :=
  { st with
    messages := st.messages.map
      (fun m => if m.id = i then { m with content := content } else m) }

/-- `flushQueuedProposal`: promote the queued proposal to pending. -/
def flushQueuedProposal (st : ChatState) : ChatState :=
  match st.queuedProposal with
  | some q => { st with pendingProposal := some q, queuedProposal := none }
  | none => st

/-- `ensureAssistantMessage`: create the assistant turn on first use, update
its content afterwards. -/
def ensureAssistantMessage (st : ChatState) (content : Str) : ChatState :=
  match st.assistantMessageId with
  | none =>
    appendMessage { st with assistantMessageId := some st.nextId }
      .assistant content .text
  | some i => updateMessageContent st i content

/-! ## Protocol literals -/

def kType : Str := "type".data
def kContent : Str := "content".data
def kToolName : Str := "tool_name".data
def kOutput : Str := "output".data
def kAvailable : Str := "available".data
def kProposal : Str := "proposal".data
def kResourceId : Str := "resource_id".data
def kStartTime : Str := "start_time".data
def kEndTime : Str := "end_time".data
def kReservationId : Str := "reservation_id".data
def kNote : Str := "note".data
def kReason : Str := "reason".data
def kSuccess : Str := "success".data
def kScheduler : Str := "scheduler".data
def kAssistantMessage : Str := "assistant_message".data

def vToken : Str := "token".data
def vMessage : Str := "message".data
def vTool : Str := "tool".data
def vDone : Str := "done".data

def nCheckAvailability : Str := "check_device_availability".data
def nUpdateStatus : Str := "update_reservation_status".data

/-- Status text for a malformed availability result. -/
def msgBadFormat : Str := "查询结果格式异常，暂无法展示预约选项。".data
/-- Fallback status text when no resource is available. -/
def msgNoResource : Str := "当前暂无符合条件的空闲资源，请尝试调整需求。".data
/-- Status text after a successful reservation update. -/
def msgUpdateDone : Str := "预约已更新完成。".data
/-- Fallback status text after a failed reservation update. -/
def msgUpdateFailed : Str := "预约更新失败，请稍后重试或重新发起请求。".data
/-- Status text for discarding a suggestion via cancel-without-id. -/
def msgCancelDiscard : Str := "已取消本次预约建议，若需要可重新询问。".data
/-- Status text for the confirm-without-start-time guard. -/
def msgMissingStartTime : Str := "缺少预约时间，暂无法提交预约。".data
/-- Prefix of the status text appended when a decision request throws. -/
def msgOpFailedPrefix : Str := "操作未完成：".data

/-! ## Tool-event handling (`handleToolEvent`) -/

/-- Strict string comparison `event.tool_name === name`. -/
def toolNameIs (ev : JsonVal) (name : Str) : Bool :=
  match getField ev kToolName with
  | some (.str s) => s == name
  | _ => false

/-- Strict string comparison `event.type === t`. -/
def typeIs (ev : JsonVal) (t : Str) : Bool :=
  match getField ev kType with
  | some (.str s) => s == t
  | _ => false

/-- The expression `event.output ??` an empty object. -/
def toolOutput (ev : JsonVal) : JsonVal := fieldOr ev kOutput (.obj [])

/-- The expression `(output as any).proposal ?? output`. -/
def availProposalRaw (output : JsonVal) : JsonVal := fieldOr output kProposal output

/-- Build a `ReservationProposal` from a raw value, as in the
`proposalRaw && typeof proposalRaw === 'object' ? ... : null` expression. -/
def parseProposal (raw : JsonVal) : Option ReservationProposal :=
  match raw with
  | .obj _ =>
    some
      { resource_id := fieldStr raw kResourceId
        start_time := fieldStr raw kStartTime
        end_time := fieldOptStr raw kEndTime
        reservation_id := fieldOptStr raw kReservationId
        note := fieldOptStr raw kNote }
  | _ => none

/-- The `check_device_availability` branch of `handleToolEvent`. -/
def handleCheckAvailability (st : ChatState) (ev : JsonVal) : ChatState :=
  let output := toolOutput ev
  if boolField output kAvailable then
    match parseProposal (availProposalRaw output) with
    | some p =>
      if p.resource_id ≠ [] ∧ p.start_time ≠ [] then
        { st with queuedProposal := some p, pendingProposal := none }
      else
        appendMessage
          { st with queuedProposal := none, pendingProposal := none }
          .system msgBadFormat .status
    | none =>
      appendMessage
        { st with queuedProposal := none, pendingProposal := none }
        .system msgBadFormat .status
  else
    appendMessage
      { st with queuedProposal := none, pendingProposal := none }
      .system ((strField output kReason).getD msgNoResource) .status

/-- The `update_reservation_status` branch of `handleToolEvent`; note that on
failure only the queued ref is cleared. -/
def handleUpdateStatus (st : ChatState) (ev : JsonVal) : ChatState :=
  let output := toolOutput ev
  let success := boolField output kSuccess
  let reason := strField output kReason
  if success then
    appendMessage
      { st with queuedProposal := none, pendingProposal := none }
      .system msgUpdateDone .status
  else
    appendMessage { st with queuedProposal := none }
      .system (reason.getD msgUpdateFailed) .status

/-- `handleToolEvent`: two sequential tool-name checks, as in the source. -/
def handleToolEvent (st : ChatState) (ev : JsonVal) : ChatState :=
  let st1 := if toolNameIs ev nCheckAvailability then handleCheckAvailability st ev else st
  if toolNameIs ev nUpdateStatus then handleUpdateStatus st1 ev else st1

/-! ## Event dispatch (`processLine`) and the stream-reading loop -/

/-- Dispatch of one successfully parsed stream event (the body of the
`try` block of `processLine`). -/
def processEvent (st : ChatState) (event : JsonVal) : ChatState :=
  if typeIs event vToken then
    let st2 := { st with
      assembledContent := st.assembledContent ++ jsToStringU (getField event kContent) }
    if st2.assembledContent ≠ [] then
      ensureAssistantMessage st2 st2.assembledContent
    else st2
  else if typeIs event vMessage then
    let st2 := { st with assembledContent := jsToStringU (getField event kContent) }
    flushQueuedProposal (ensureAssistantMessage st2 st2.assembledContent)
  else if typeIs event vTool then
    handleToolEvent st event
  else if typeIs event vDone then
    flushQueuedProposal st
  else st

/-- `processLine`: skip empty lines, parse, dispatch; a parse error leaves
the state unchanged (the error is only logged). -/
def processLine (st : ChatState) (line : Str) : ChatState :=
  if line = [] then st
  else
    match jsonParse line with
    | some event => processEvent st event
    | none => st

/-- Trim each decoded raw line and keep the non-empty ones, as done by the
per-chunk loop before calling `processLine`. -/
def cleanLines (ls : List Str) : List Str :=
  (ls.map trimChars).filter (fun l => l ≠ [])

/-- JavaScript `String.prototype.split` on a newline separator. -/
def splitNl : Str → List Str
  | [] => [[]]
  | c :: cs =>
    let r := splitNl cs
    if c = '\n' then [] :: r
    else (c :: r.headD []) :: r.tail

/-- One iteration of the reader loop: append the chunk to the buffer, split
on newlines, keep the last segment as the new buffer (`lines.pop() ?? ''`),
and emit the remaining segments trimmed and filtered. -/
def feedChunk (buf chunk : Str) : Str × List Str :=
  let lines := splitNl (buf ++ chunk)
  (lines.getLast?.getD [], cleanLines lines.dropLast)

/-- Fold step accumulating the emitted lines of each chunk in order. -/
def feedStep (acc : Str × List Str) (chunk : Str) : Str × List Str :=
  let r := feedChunk acc.1 chunk
  (r.1, acc.2 ++ r.2)

/-- The reader loop over all chunks, starting from an empty buffer. -/
def feedChunks (chunks : List Str) : Str × List Str :=
  chunks.foldl feedStep ([], [])

/-- The full stream decoding: the per-chunk loop, then the end-of-stream
handling that emits a non-empty trimmed residual buffer as one final line. -/
def decodeStream (chunks : List Str) : List Str :=
  let fc := feedChunks chunks
  let remaining := trimChars fc.1
  if remaining = [] then fc.2 else fc.2 ++ [remaining]

/-- `streamAssistantResponse` (success path): reset the per-stream
accumulator, process every decoded line in arrival order, and flush any
queued proposal at the end. -/
def streamAssistantResponse (st : ChatState) (chunks : List Str) : ChatState :=
  flushQueuedProposal
    ((decodeStream chunks).foldl processLine
      { st with assistantMessageId := none, assembledContent := [] })

/-! ## Decision submission (`handleReservationDecision`) -/

/-- Outcome of the decision fetch, as observed by the handler: `fail` covers
a rejected fetch, a non-success HTTP status and an unparseable body (all
reach the `catch` block, with the error message text); `success` carries the
parsed response body. -/
inductive FetchOutcome where
  | fail (msg : Str) : FetchOutcome
  | success (body : JsonVal) : FetchOutcome

/-- The JSON payload of one issued decision request. -/
structure DecisionRequest where
  action : RDAction
  start_time : Option Str
  reservation_id : Option Str
deriving DecidableEq, Repr

/-- Optional chaining `body?.scheduler?.success` coerced with `Boolean`. -/
def schedulerSuccessOf (body : JsonVal) : Bool :=
  match (getField body kScheduler).bind (fun s => getField s kSuccess) with
  | some v => truthy v
  | none => false

/-- Optional chaining `body?.scheduler?.reason` kept only when a string. -/
def schedulerReasonOf (body : JsonVal) : Option Str :=
  match (getField body kScheduler).bind (fun s => getField s kReason) with
  | some (.str s) => some s
  | _ => none

/-- The `assistant_message` field of the response body when it is a string. -/
def assistantMessageOf (body : JsonVal) : Str :=
  match getField body kAssistantMessage with
  | some (.str s) => s
  | _ => []

/-- `handleReservationDecision`: guard clauses, request construction, response
reconciliation and the `finally` block.  Returns the new state together with
the list of network requests issued during the invocation. -/
def handleReservationDecision (st : ChatState) (action : RDAction)
    (outcome : FetchOutcome) : ChatState × List DecisionRequest :=
  match st.pendingProposal with
  | none => (st, [])
  | some p =>
    if action = .cancel ∧ ¬ optStrTruthy p.reservation_id then
      (appendMessage { st with queuedProposal := none, pendingProposal := none }
        .system msgCancelDiscard .status, [])
    else if action = .confirm ∧ p.start_time = [] then
      (appendMessage { st with queuedProposal := none }
        .system msgMissingStartTime .status, [])
    else
      let st1 := { st with decisionLoading := some action }
      let req : DecisionRequest :=
        { action := action
          start_time := if action = .confirm then some p.start_time else none
          reservation_id :=
            if action = .cancel ∧ optStrTruthy p.reservation_id
            then p.reservation_id else none }
      let st2 :=
        match outcome with
        | .fail msg => appendMessage st1 .system (msgOpFailedPrefix ++ msg) .status
        | .success body =>
          let stA :=
            if assistantMessageOf body ≠ [] then
              appendMessage st1 .assistant (assistantMessageOf body) .text
            else st1
          if schedulerSuccessOf body then
            { stA with queuedProposal := none, pendingProposal := none }
          else
            match schedulerReasonOf body with
            | some r => appendMessage stA .system r .status
            | none => stA
      let st3 := { st2 with decisionLoading := none }
      let st4 :=
        if action = .cancel then
          { st3 with pendingProposal := none, queuedProposal := none }
        else st3
      (st4, [req])

/-- The `disabled` attribute of the confirm button
(`decisionLoading === 'confirm'`). -/
def confirmButtonDisabled (st : ChatState) : Bool :=
  st.decisionLoading = some RDAction.confirm

/-- The `disabled` attribute of the cancel button
(`decisionLoading === 'cancel'`). -/
def cancelButtonDisabled (st : ChatState) : Bool :=
  st.decisionLoading = some RDAction.cancel

/-! ## Specification-side predicates -/

/-- A proposal passing the queueing guard: non-empty resource and start time. -/
def goodProposal (p : ReservationProposal) : Prop :=
  p.resource_id ≠ [] ∧ p.start_time ≠ []

/-- Invariant: every queued or pending proposal passes the queueing guard. -/
def stateGood (st : ChatState) : Prop :=
  (∀ p, st.queuedProposal = some p → goodProposal p) ∧
  (∀ p, st.pendingProposal = some p → goodProposal p)

/-- A failed decision outcome in the sense of the spec: a thrown or non-success
HTTP response, or a body whose scheduler outcome is not a success. -/
def decisionFailed : FetchOutcome → Prop
  | .fail _ => True
  | .success body => schedulerSuccessOf body = false

/-! ## Proof-support definitions and concrete fixtures -/

/-- Complete newline-terminated lines of a string together with the trailing
partial segment (a fused view of split-then-pop, used only in proofs). -/
def splitNl1 : Str → List Str × Str
  | [] => ([], [])
  | c :: cs =>
    if c = '\n' then ([] :: (splitNl1 cs).1, (splitNl1 cs).2)
    else
      match (splitNl1 cs).1 with
      | [] => ([], c :: (splitNl1 cs).2)
      | l :: ls => ((c :: l) :: ls, (splitNl1 cs).2)

/-- A token stream event with the given content, as parsed from a line. -/
def tokenEvent (c : Str) : JsonVal :=
  .obj [(kType, .str vToken), (kContent, .str c)]

/-- A fresh widget state (empty timeline, no proposals, nothing in flight). -/
def stInit : ChatState :=
  { messages := [], queuedProposal := none, pendingProposal := none,
    decisionLoading := none, assistantMessageId := none,
    assembledContent := [], nextId := 0 }

/-- A concrete proposal without a reservation id. -/
def pDemo : ReservationProposal :=
  { resource_id := "device-001".data,
    start_time := "2025-09-25T02:00:00+00:00".data,
    end_time := none, reservation_id := none, note := none }

/-- The concrete proposal `pDemo` extended with a reservation id. -/
def pWithId : ReservationProposal :=
  { pDemo with reservation_id := some ("resv-1".data) }

/-- A state showing the proposal card for `pDemo`. -/
def stPending : ChatState := { stInit with pendingProposal := some pDemo }

/-- A state with a pending proposal while a confirm submission is in flight. -/
def stInFlight : ChatState :=
  { stInit with
    pendingProposal := some pWithId
    decisionLoading := some RDAction.confirm }

/-- A concrete `update_reservation_status` tool event reporting failure. -/
def evUpdFail : JsonVal :=
  .obj [(kType, .str vTool), (kToolName, .str nUpdateStatus),
        (kOutput, .obj [(kSuccess, .bool false)])]

/-- A concrete tool event with an unknown tool name. -/
def evUnknownTool : JsonVal :=
  .obj [(kType, .str vTool), (kToolName, .str ("fetch_weather".data)),
        (kOutput, .obj [(kSuccess, .bool true)])]

/-- A concrete qualifying `check_device_availability` tool event. -/
def evAvail : JsonVal :=
  .obj [(kType, .str vTool), (kToolName, .str nCheckAvailability),
        (kOutput, .obj [(kAvailable, .bool true),
          (kProposal, .obj [(kResourceId, .str ("device-001".data)),
            (kStartTime, .str ("2025-09-25T02:00:00+00:00".data))])])]

/-- A decision response body with a failed scheduler outcome and no reason. -/
def bodySchedFail : JsonVal :=
  .obj [(kScheduler, .obj [(kSuccess, .bool false)])]

/-- First chunk of the §8 stream scenario. -/
def c6Chunk1 : Str :=
  "\x7b\"type\":\"token\",\"content\":\"您\"\x7d\n\x7b\"type\":\"token\"".data

/-- Second chunk of the §8 stream scenario. -/
def c6Chunk2 : Str :=
  "\":\"message\",\"content\":\"收到\"\x7d\n\x7b\"type\":\"done\"\x7d\n".data

/-- First decoded line of the scenario: a complete token record. -/
def c6Line1 : Str :=
  "\x7b\"type\":\"token\",\"content\":\"您\"\x7d".data

/-- Second decoded line of the scenario: the two fragments glued across the
chunk boundary, which is not valid JSON. -/
def c6LineGlued : Str :=
  "\x7b\"type\":\"token\"\":\"message\",\"content\":\"收到\"\x7d".data

/-- Third decoded line of the scenario: the done record. -/
def c6Line3 : Str := "\x7b\"type\":\"done\"\x7d".data

/-! ## Decoder lemmas -/

theorem splitNl_eq_splitNl1 (s : Str) :
    splitNl s = (splitNl1 s).1 ++ [(splitNl1 s).2] := by
  induction s with
  | nil => rfl
  | cons c cs ih =>
    by_cases h : c = '\n'
    · simp [splitNl, splitNl1, h, ih]
    · rcases hp : (splitNl1 cs).1 with _ | ⟨l, ls⟩
      · simp [splitNl, splitNl1, h, ih, hp]
      · simp [splitNl, splitNl1, h, ih, hp]

theorem splitNl1_tail_nonl (s : Str) : '\n' ∉ (splitNl1 s).2 := by
  induction s with
  | nil => simp [splitNl1]
  | cons c cs ih =>
    by_cases h : c = '\n'
    · simp [splitNl1, h, ih]
    · rcases hp : (splitNl1 cs).1 with _ | ⟨l, ls⟩
      · simp [splitNl1, h, hp]
        exact ⟨fun hc => h hc.symm, ih⟩
      · simp [splitNl1, h, hp, ih]

theorem splitNl1_of_nonl (s : Str) (h : '\n' ∉ s) : splitNl1 s = ([], s) := by
  induction s with
  | nil => rfl
  | cons c cs ih =>
    have hc : c ≠ '\n' := fun hc => h (hc ▸ List.mem_cons_self c cs)
    have ih2 := ih (fun hm => h (List.mem_cons_of_mem c hm))
    simp [splitNl1, hc, ih2]

theorem splitNl1_append (x y : Str) :
    splitNl1 (x ++ y) =
      ((splitNl1 x).1 ++ (splitNl1 ((splitNl1 x).2 ++ y)).1,
       (splitNl1 ((splitNl1 x).2 ++ y)).2) := by
  induction x with
  | nil => simp [splitNl1]
  | cons c cs ih =>
    by_cases h : c = '\n'
    · simp [splitNl1, h, ih]
    · rcases hp : (splitNl1 cs).1 with _ | ⟨l, ls⟩
      · simp [splitNl1, h, hp, ih]
      · simp [splitNl1, h, hp, ih]

theorem cleanLines_append (a b : List Str) :
    cleanLines (a ++ b) = cleanLines a ++ cleanLines b := by
  simp [cleanLines]

theorem feedChunk_eq (buf chunk : Str) :
    feedChunk buf chunk =
      ((splitNl1 (buf ++ chunk)).2, cleanLines (splitNl1 (buf ++ chunk)).1) := by
  unfold feedChunk
  rw [splitNl_eq_splitNl1]
  simp

theorem feed_foldl (chunks : List Str) (buf : Str) (acc : List Str)
    (h : '\n' ∉ buf) :
    chunks.foldl feedStep (buf, acc) =
      ((splitNl1 (buf ++ chunks.flatten)).2,
       acc ++ cleanLines (splitNl1 (buf ++ chunks.flatten)).1) := by
  induction chunks generalizing buf acc with
  | nil => simp [splitNl1_of_nonl buf h, cleanLines]
  | cons c cs ih =>
    simp only [List.foldl_cons, List.flatten_cons]
    have hstep : feedStep (buf, acc) c =
        ((splitNl1 (buf ++ c)).2, acc ++ cleanLines (splitNl1 (buf ++ c)).1) := by
      simp [feedStep, feedChunk_eq]
    rw [hstep, ih _ _ (splitNl1_tail_nonl (buf ++ c))]
    rw [← List.append_assoc buf c cs.flatten, splitNl1_append (buf ++ c) cs.flatten]
    simp [cleanLines_append]

theorem splitNl1_record (r s : Str) (h : '\n' ∉ r) :
    splitNl1 (r ++ '\n' :: s) = (r :: (splitNl1 s).1, (splitNl1 s).2) := by
  induction r with
  | nil => simp [splitNl1]
  | cons c cs ih =>
    have hc : c ≠ '\n' := fun hh => h (hh ▸ List.mem_cons_self c cs)
    have ih2 := ih (fun hm => h (List.mem_cons_of_mem c hm))
    simp [splitNl1, hc, ih2]

theorem splitNl1_records (records : List Str) (rest : Str)
    (hrec : ∀ r ∈ records, '\n' ∉ r) (hrest : '\n' ∉ rest) :
    splitNl1 ((records.map (fun r => r ++ ['\n'])).flatten ++ rest) =
      (records, rest) := by
  induction records with
  | nil => simpa using splitNl1_of_nonl rest hrest
  | cons r rs ih =>
    have h1 : '\n' ∉ r := hrec r (List.mem_cons_self r rs)
    have h2 : ∀ q ∈ rs, '\n' ∉ q := fun q hq => hrec q (List.mem_cons_of_mem r hq)
    simp only [List.map_cons, List.flatten_cons, List.append_assoc]
    have hcons : ['\n'] ++ ((rs.map (fun q => q ++ ['\n'])).flatten ++ rest) =
        '\n' :: ((rs.map (fun q => q ++ ['\n'])).flatten ++ rest) := rfl
    rw [hcons, splitNl1_record r _ h1, ih h2]

theorem cleanLines_self (ls : List Str)
    (h : ∀ l ∈ ls, l ≠ [] ∧ trimChars l = l) :
    cleanLines ls = ls := by
  induction ls with
  | nil => rfl
  | cons l rest ih =>
    have h1 := h l (List.mem_cons_self l rest)
    have h2 := ih (fun q hq => h q (List.mem_cons_of_mem l hq))
    simp [cleanLines, h1.1, h1.2] at h2 ⊢
    exact h2

/-! ## Dispatch helper lemmas -/

theorem typeIs_ne (ev : JsonVal) (a b : Str) (hne : a ≠ b)
    (h : typeIs ev a = true) : typeIs ev b = false := by
  unfold typeIs at h ⊢
  rcases hf : getField ev kType with _ | v
  · exact absurd h (by simp [hf])
  · simp only [hf] at h ⊢
    cases v with
    | str s =>
      have hs : s = a := by simpa using h
      subst hs
      simpa using hne
    | null => simp at h
    | bool b2 => simp at h
    | num n => simp at h
    | obj fs => simp at h

theorem toolNameIs_ne (ev : JsonVal) (a b : Str) (hne : a ≠ b)
    (h : toolNameIs ev a = true) : toolNameIs ev b = false := by
  unfold toolNameIs at h ⊢
  rcases hf : getField ev kToolName with _ | v
  · exact absurd h (by simp [hf])
  · simp only [hf] at h ⊢
    cases v with
    | str s =>
      have hs : s = a := by simpa using h
      subst hs
      simpa using hne
    | null => simp at h
    | bool b2 => simp at h
    | num n => simp at h
    | obj fs => simp at h

/-! ## Frame lemmas for the state helpers -/

@[simp] theorem appendMessage_queuedProposal (st : ChatState) (r : MessageRole)
    (c : Str) (k : MsgKind) :
    (appendMessage st r c k).queuedProposal = st.queuedProposal := rfl

@[simp] theorem appendMessage_pendingProposal (st : ChatState) (r : MessageRole)
    (c : Str) (k : MsgKind) :
    (appendMessage st r c k).pendingProposal = st.pendingProposal := rfl

@[simp] theorem updateMessageContent_queuedProposal (st : ChatState) (i : Nat)
    (c : Str) : (updateMessageContent st i c).queuedProposal = st.queuedProposal := rfl

@[simp] theorem updateMessageContent_pendingProposal (st : ChatState) (i : Nat)
    (c : Str) : (updateMessageContent st i c).pendingProposal = st.pendingProposal := rfl

@[simp] theorem ensureAssistantMessage_queuedProposal (st : ChatState) (c : Str) :
    (ensureAssistantMessage st c).queuedProposal = st.queuedProposal := by
  unfold ensureAssistantMessage
  cases st.assistantMessageId <;> rfl

@[simp] theorem ensureAssistantMessage_pendingProposal (st : ChatState) (c : Str) :
    (ensureAssistantMessage st c).pendingProposal = st.pendingProposal := by
  unfold ensureAssistantMessage
  cases st.assistantMessageId <;> rfl

/-! ## Invariant preservation helpers -/

theorem stateGood_of_proposals_eq {a b : ChatState}
    (h1 : a.queuedProposal = b.queuedProposal)
    (h2 : a.pendingProposal = b.pendingProposal)
    (hb : stateGood b) : stateGood a := by
  refine ⟨fun p hp => hb.1 p ?_, fun p hp => hb.2 p ?_⟩
  · rw [← h1]; exact hp
  · rw [← h2]; exact hp

theorem stateGood_flushQueuedProposal {st : ChatState} (h : stateGood st) :
    stateGood (flushQueuedProposal st) := by
  unfold flushQueuedProposal
  rcases hq : st.queuedProposal with _ | q
  · exact h
  · refine ⟨fun p hp => ?_, fun p hp => ?_⟩
    · simp at hp
    · simp at hp
      exact hp ▸ h.1 q hq

theorem stateGood_handleCheckAvailability {st : ChatState} (ev : JsonVal)
    (_h : stateGood st) : stateGood (handleCheckAvailability st ev) := by
  unfold handleCheckAvailability
  dsimp only
  by_cases ha : boolField (toolOutput ev) kAvailable = true
  · rw [if_pos ha]
    rcases hp : parseProposal (availProposalRaw (toolOutput ev)) with _ | p
    · refine ⟨fun q hq => ?_, fun q hq => ?_⟩ <;> simp at hq
    · dsimp only
      by_cases hg : p.resource_id ≠ [] ∧ p.start_time ≠ []
      · rw [if_pos hg]
        refine ⟨fun q hq => ?_, fun q hq => ?_⟩
        · simp at hq
          exact hq ▸ hg
        · simp at hq
      · rw [if_neg hg]
        refine ⟨fun q hq => ?_, fun q hq => ?_⟩ <;> simp at hq
  · rw [if_neg ha]
    refine ⟨fun q hq => ?_, fun q hq => ?_⟩ <;> simp at hq

theorem stateGood_handleUpdateStatus {st : ChatState} (ev : JsonVal)
    (h : stateGood st) : stateGood (handleUpdateStatus st ev) := by
  unfold handleUpdateStatus
  dsimp only
  by_cases hs : boolField (toolOutput ev) kSuccess = true
  · rw [if_pos hs]
    refine ⟨fun q hq => ?_, fun q hq => ?_⟩ <;> simp at hq
  · rw [if_neg hs]
    refine ⟨fun q hq => ?_, fun q hq => ?_⟩
    · simp at hq
    · simp at hq
      exact h.2 q hq

theorem stateGood_handleToolEvent {st : ChatState} (ev : JsonVal)
    (h : stateGood st) : stateGood (handleToolEvent st ev) := by
  unfold handleToolEvent
  dsimp only
  by_cases h1 : toolNameIs ev nCheckAvailability = true <;>
    by_cases h2 : toolNameIs ev nUpdateStatus = true <;>
      simp only [h1, h2, if_true, if_false, Bool.false_eq_true, if_neg, ite_false, ite_true]
  · exact stateGood_handleUpdateStatus ev (stateGood_handleCheckAvailability ev h)
  · exact stateGood_handleCheckAvailability ev h
  · exact stateGood_handleUpdateStatus ev h
  · exact h

theorem stateGood_processEvent {st : ChatState} (ev : JsonVal)
    (h : stateGood st) : stateGood (processEvent st ev) := by
  unfold processEvent
  dsimp only
  by_cases h1 : typeIs ev vToken = true
  · rw [if_pos h1]
    split
    · exact stateGood_of_proposals_eq (by simp) (by simp) h
    · exact stateGood_of_proposals_eq (by simp) (by simp) h
  · rw [if_neg h1]
    by_cases h2 : typeIs ev vMessage = true
    · rw [if_pos h2]
      refine stateGood_flushQueuedProposal (stateGood_of_proposals_eq ?_ ?_ h) <;> simp
    · rw [if_neg h2]
      by_cases h3 : typeIs ev vTool = true
      · rw [if_pos h3]
        exact stateGood_handleToolEvent ev h
      · rw [if_neg h3]
        by_cases h4 : typeIs ev vDone = true
        · rw [if_pos h4]
          exact stateGood_flushQueuedProposal h
        · rw [if_neg h4]
          exact h

theorem stateGood_processLine {st : ChatState} (l : Str)
    (h : stateGood st) : stateGood (processLine st l) := by
  unfold processLine
  split
  · exact h
  · split
    · exact stateGood_processEvent _ h
    · exact h

/-! ## Claim theorems -/

/-- Claim C3 (confirmed): for every finite sequence of raw chunks whose
concatenation is a sequence of complete newline-terminated records followed
by an optional trailing partial record, the stream-reading loop processes
exactly those record lines in order, regardless of where chunk boundaries
fall, and a non-empty residual buffer at end-of-stream is processed as one
final line. -/
theorem c3_decoder_chunk_invariance (chunks records : List Str) (rest : Str)
    (hjoin : chunks.flatten = (records.map (fun r => r ++ ['\n'])).flatten ++ rest)
    (hrec : ∀ r ∈ records, r ≠ [] ∧ '\n' ∉ r ∧ trimChars r = r)
    (hrest1 : '\n' ∉ rest) (hrest2 : trimChars rest = rest) :
    decodeStream chunks = records ++ (if rest = [] then [] else [rest]) := by
  unfold decodeStream feedChunks
  rw [feed_foldl chunks [] [] (by simp)]
  simp only [List.nil_append]
  rw [hjoin, splitNl1_records records rest (fun r hr => (hrec r hr).2.1) hrest1]
  simp only
  rw [cleanLines_self records (fun r hr => ⟨(hrec r hr).1, (hrec r hr).2.2⟩), hrest2]
  by_cases h : rest = [] <;> simp [h]

/-- Witness for C3 at a concrete two-chunk split of two records and a
trailing partial record. -/
theorem c3_decoder_chunk_invariance_witness :
    decodeStream [("ab\nc").data, ("d\ne").data] =
      [("ab").data, ("cd").data, ("e").data] := by
  have h := c3_decoder_chunk_invariance [("ab\nc").data, ("d\ne").data]
    [("ab").data, ("cd").data] (("e").data)
    (by decide) (by decide) (by decide) (by decide)
  rw [if_neg (by decide)] at h
  exact h.trans (by decide)

/-- Claim C4 (confirmed): a qualifying `check_device_availability` result
always overwrites the queued proposal with the newly extracted one and resets
the pending proposal, leaving the timeline unchanged — so a second
qualifying result before promotion replaces, never appends, the queued
value (at most one proposal can be pending at a time structurally, since
`pendingProposal` is an `Option`). -/
theorem c4_availability_replaces_queued (st : ChatState) (ev : JsonVal)
    (p : ReservationProposal)
    (hname : toolNameIs ev nCheckAvailability = true)
    (havail : boolField (toolOutput ev) kAvailable = true)
    (hp : parseProposal (availProposalRaw (toolOutput ev)) = some p)
    (hgood : p.resource_id ≠ [] ∧ p.start_time ≠ []) :
    (handleToolEvent st ev).queuedProposal = some p ∧
    (handleToolEvent st ev).pendingProposal = none ∧
    (handleToolEvent st ev).messages = st.messages := by
  have hupd : toolNameIs ev nUpdateStatus = false :=
    toolNameIs_ne ev nCheckAvailability nUpdateStatus (by decide) hname
  unfold handleToolEvent
  dsimp only
  rw [if_neg (by simp [hupd]), if_pos hname]
  unfold handleCheckAvailability
  dsimp only
  rw [if_pos havail, hp]
  dsimp only
  rw [if_pos hgood]
  exact ⟨rfl, rfl, rfl⟩

/-- Witness for C4: a concrete qualifying availability event replaces an
already queued proposal. -/
theorem c4_availability_replaces_queued_witness :
    (handleToolEvent { stInit with queuedProposal := some pWithId } evAvail).queuedProposal =
      some pDemo ∧
    (handleToolEvent { stInit with queuedProposal := some pWithId } evAvail).pendingProposal =
      none := by
  have h := c4_availability_replaces_queued
    { stInit with queuedProposal := some pWithId } evAvail pDemo
    (by decide) (by decide) (by decide) (by decide)
  exact ⟨h.1, h.2.1⟩

/-- Claim C7 (confirmed): a cancel decision on a pending proposal without a
reservation id issues no network request, clears both the queued and the
pending proposal, and appends exactly one status turn. -/
theorem c7_cancel_without_id (st : ChatState) (p : ReservationProposal)
    (outcome : FetchOutcome)
    (hp : st.pendingProposal = some p)
    (hid : optStrTruthy p.reservation_id = false) :
    (handleReservationDecision st RDAction.cancel outcome).2 = [] ∧
    (handleReservationDecision st RDAction.cancel outcome).1.pendingProposal = none ∧
    (handleReservationDecision st RDAction.cancel outcome).1.queuedProposal = none ∧
    (handleReservationDecision st RDAction.cancel outcome).1.messages =
      st.messages ++ [⟨st.nextId, MessageRole.system, msgCancelDiscard, MsgKind.status⟩] := by
  unfold handleReservationDecision
  rw [hp]
  dsimp only
  rw [if_pos ⟨rfl, by simp [hid]⟩]
  exact ⟨rfl, rfl, rfl, rfl⟩

/-- Witness for C7 on the concrete pending proposal without an id. -/
theorem c7_cancel_without_id_witness :
    (handleReservationDecision stPending RDAction.cancel (.fail ("boom").data)).2 = [] ∧
    (handleReservationDecision stPending RDAction.cancel (.fail ("boom").data)).1.pendingProposal
      = none := by
  have h := c7_cancel_without_id stPending pDemo (.fail ("boom").data) rfl (by decide)
  exact ⟨h.1, h.2.1⟩

/-- Claim C10 (confirmed): a tool event whose tool name is neither
`check_device_availability` nor `update_reservation_status` leaves the whole
state unchanged — timeline, queued and pending proposal — and appends no
status turn. -/
theorem c10_unknown_tool_noop (st : ChatState) (ev : JsonVal)
    (htool : typeIs ev vTool = true)
    (h1 : toolNameIs ev nCheckAvailability = false)
    (h2 : toolNameIs ev nUpdateStatus = false) :
    processEvent st ev = st := by
  have ht1 : typeIs ev vToken = false := typeIs_ne ev vTool vToken (by decide) htool
  have ht2 : typeIs ev vMessage = false := typeIs_ne ev vTool vMessage (by decide) htool
  unfold processEvent
  dsimp only
  rw [if_neg (by simp [ht1]), if_neg (by simp [ht2]), if_pos htool]
  unfold handleToolEvent
  dsimp only
  rw [if_neg (by simp [h2]), if_neg (by simp [h1])]

/-- Witness for C10 on a concrete unknown tool event. -/
theorem c10_unknown_tool_noop_witness :
    processEvent stPending evUnknownTool = stPending :=
  c10_unknown_tool_noop stPending evUnknownTool (by decide) (by decide) (by decide)

/-- Claim C1 (corrected): the claim asserts that a failed confirm decision
clears the pending proposal; on the code a failed confirm (thrown or
non-success HTTP response, or scheduler outcome `success == false`) leaves
the pending proposal present and unchanged — only cancel always clears it. -/
theorem c1_confirm_failure_keeps_pending (st : ChatState) (p : ReservationProposal)
    (outcome : FetchOutcome)
    (hp : st.pendingProposal = some p)
    (hst : p.start_time ≠ [])
    (hfail : decisionFailed outcome) :
    (handleReservationDecision st RDAction.confirm outcome).1.pendingProposal = some p ∧
    (handleReservationDecision st RDAction.cancel outcome).1.pendingProposal = none := by
  constructor
  · unfold handleReservationDecision
    rw [hp]
    dsimp only
    rw [if_neg (by simp), if_neg (by simp [hst])]
    cases outcome with
    | fail msg => simp [appendMessage, hp]
    | success body =>
      have hs : schedulerSuccessOf body = false := hfail
      rcases hsr : schedulerReasonOf body with _ | r <;>
        by_cases ham : assistantMessageOf body ≠ [] <;>
          simp [appendMessage, hp, hs, hsr, ham]
  · unfold handleReservationDecision
    rw [hp]
    dsimp only
    cases hB : optStrTruthy p.reservation_id with
    | false => rw [if_pos ⟨rfl, by simp [hB]⟩]; simp
    | true =>
      rw [if_neg (by simp [hB]), if_neg (by simp)]
      cases outcome <;> simp

/-- Counterexample for C1 as stated: at a concrete pending proposal, both a
non-success HTTP response and a scheduler failure leave the proposal
present, not cleared to none. -/
theorem c1_counterexample :
    (handleReservationDecision stPending RDAction.confirm
      (.fail ("操作失败 (500)").data)).1.pendingProposal ≠ none ∧
    (handleReservationDecision stPending RDAction.confirm
      (.success bodySchedFail)).1.pendingProposal ≠ none := by
  decide

/-- Witness for C1 at the concrete pending proposal and a failing fetch. -/
theorem c1_confirm_failure_keeps_pending_witness :
    (handleReservationDecision stPending RDAction.confirm
      (.fail ("操作失败 (500)").data)).1.pendingProposal = some pDemo ∧
    (handleReservationDecision stPending RDAction.cancel
      (.fail ("操作失败 (500)").data)).1.pendingProposal = none :=
  c1_confirm_failure_keeps_pending stPending pDemo (.fail ("操作失败 (500)").data)
    rfl (by decide) trivial

/-- Claim C2 (corrected): the claim asserts that a failed
`update_reservation_status` clears both the queued value and the pending
proposal; on the code it clears only the queued ref and leaves the pending
proposal unchanged, while appending exactly one status turn carrying the
provided reason or the generic retry message. -/
theorem c2_update_failure_clears_queued_only (st : ChatState) (ev : JsonVal)
    (hname : toolNameIs ev nUpdateStatus = true)
    (hfail : boolField (toolOutput ev) kSuccess = false) :
    (handleToolEvent st ev).queuedProposal = none ∧
    (handleToolEvent st ev).pendingProposal = st.pendingProposal ∧
    (handleToolEvent st ev).messages = st.messages ++
      [⟨st.nextId, MessageRole.system,
        (strField (toolOutput ev) kReason).getD msgUpdateFailed, MsgKind.status⟩] := by
  have hchk : toolNameIs ev nCheckAvailability = false :=
    toolNameIs_ne ev nUpdateStatus nCheckAvailability (by decide) hname
  unfold handleToolEvent
  dsimp only
  rw [if_pos hname, if_neg (by simp [hchk])]
  unfold handleUpdateStatus
  dsimp only
  rw [if_neg (by simp [hfail])]
  exact ⟨rfl, rfl, rfl⟩

/-- Counterexample for C2 as stated: a concrete failing update event leaves
a concrete pending proposal in place instead of clearing it. -/
theorem c2_counterexample :
    (handleToolEvent stPending evUpdFail).pendingProposal ≠ none := by
  decide

/-- Witness for C2 at the concrete failing update event. -/
theorem c2_update_failure_clears_queued_only_witness :
    (handleToolEvent stPending evUpdFail).queuedProposal = none ∧
    (handleToolEvent stPending evUpdFail).pendingProposal = some pDemo ∧
    (handleToolEvent stPending evUpdFail).messages =
      [⟨0, MessageRole.system, msgUpdateFailed, MsgKind.status⟩] := by
  have h := c2_update_failure_clears_queued_only stPending evUpdFail
    (by decide) (by decide)
  refine ⟨h.1, ?_, ?_⟩
  · rw [h.2.1]; rfl
  · rw [h.2.2]; rfl

/-- Claim C5 (corrected): the claim asserts that invoking the decision
handler while a submission is in flight is rejected as a no-op; on the code
the handler has no submitting guard at all — it issues a request exactly
when a pending proposal passes the two guard clauses, independently of
`decisionLoading` (each button's `disabled` attribute only blocks re-clicking
the same action). -/
theorem c5_request_iff_guards (st : ChatState) (action : RDAction)
    (outcome : FetchOutcome) :
    (handleReservationDecision st action outcome).2 ≠ [] ↔
      ∃ p, st.pendingProposal = some p ∧
        ¬(action = RDAction.cancel ∧ ¬ optStrTruthy p.reservation_id = true) ∧
        ¬(action = RDAction.confirm ∧ p.start_time = []) := by
  unfold handleReservationDecision
  rcases hp : st.pendingProposal with _ | p
  · simp
  · dsimp only
    by_cases h1 : action = RDAction.cancel ∧ ¬ optStrTruthy p.reservation_id = true
    · rw [if_pos h1]
      simp only [ne_eq, not_true_eq_false, false_iff, not_exists]
      rintro q ⟨hq, hg1, hg2⟩
      exact hg1 (Option.some.inj hq ▸ h1)
    · rw [if_neg h1]
      by_cases h2 : action = RDAction.confirm ∧ p.start_time = []
      · rw [if_pos h2]
        simp only [ne_eq, not_true_eq_false, false_iff, not_exists]
        rintro q ⟨hq, hg1, hg2⟩
        exact hg2 (Option.some.inj hq ▸ h2)
      · rw [if_neg h2]
        simp only [ne_eq, List.cons_ne_nil, not_false_eq_true, true_iff]
        exact ⟨p, rfl, h1, h2⟩

/-- Counterexample for C5 as stated: with a confirm submission in flight
(`decisionLoading` set), invoking the handler for cancel is not a no-op and
issues a second network request. -/
theorem c5_counterexample :
    (handleReservationDecision stInFlight RDAction.cancel (.fail ("x").data)).2 ≠ [] := by
  decide

/-- Witness for C5: the characterization applies at a concrete in-flight
state, confirming that a request is issued regardless of `decisionLoading`. -/
theorem c5_request_iff_guards_witness :
    (handleReservationDecision stInFlight RDAction.confirm (.fail ("x").data)).2 ≠ [] :=
  (c5_request_iff_guards stInFlight RDAction.confirm (.fail ("x").data)).mpr
    ⟨pWithId, rfl, by decide, by decide⟩

/-- Claim C6 (corrected): the claim asserts the §8 two-chunk scenario yields
exactly two decoded lines and final assistant text 收到; on the code the two
fragments glue into a third, malformed middle line, which is skipped, so
three lines are decoded and the final assistant text is 您. -/
theorem c6_scenario_behavior :
    decodeStream [c6Chunk1, c6Chunk2] = [c6Line1, c6LineGlued, c6Line3] ∧
    jsonParse c6LineGlued = none ∧
    (streamAssistantResponse stInit [c6Chunk1, c6Chunk2]).messages =
      [⟨0, MessageRole.assistant, ("您").data, MsgKind.text⟩] ∧
    (streamAssistantResponse stInit [c6Chunk1, c6Chunk2]).assembledContent = ("您").data ∧
    (streamAssistantResponse stInit [c6Chunk1, c6Chunk2]).pendingProposal = none ∧
    (streamAssistantResponse stInit [c6Chunk1, c6Chunk2]).queuedProposal = none :=
  ⟨rfl, rfl, rfl, rfl, rfl, rfl⟩

/-- Counterexample for C6 as stated: the scenario does not decode exactly
two lines with final text 收到. -/
theorem c6_counterexample :
    ¬ ((decodeStream [c6Chunk1, c6Chunk2]).length = 2 ∧
       (streamAssistantResponse stInit [c6Chunk1, c6Chunk2]).assembledContent =
         ("收到").data) := by
  decide

/-- Claim C8 (corrected): the claim asserts the first token event of a turn
creates the assistant turn; on the code the turn is created by the first
token that makes the accumulated text non-empty (a token leaving it empty
changes nothing), and every later token event rewrites that same turn in
place with the updated accumulated text. -/
theorem c8_token_rendering (st : ChatState) (c : Str) :
    (st.assistantMessageId = none →
      ((st.assembledContent ++ c ≠ [] →
        (processEvent st (tokenEvent c)).messages =
          st.messages ++ [⟨st.nextId, MessageRole.assistant,
            st.assembledContent ++ c, MsgKind.text⟩] ∧
        (processEvent st (tokenEvent c)).assistantMessageId = some st.nextId) ∧
       (st.assembledContent ++ c = [] →
        (processEvent st (tokenEvent c)).messages = st.messages ∧
        (processEvent st (tokenEvent c)).assistantMessageId = none))) ∧
    (∀ i, st.assistantMessageId = some i → st.assembledContent ++ c ≠ [] →
      (processEvent st (tokenEvent c)).messages =
        st.messages.map (fun m => if m.id = i
          then { m with content := st.assembledContent ++ c } else m) ∧
      (processEvent st (tokenEvent c)).assistantMessageId = some i ∧
      (processEvent st (tokenEvent c)).messages.length = st.messages.length) := by
  have htok : typeIs (tokenEvent c) vToken = true := rfl
  have hcon : getField (tokenEvent c) kContent = some (.str c) := rfl
  have hred : processEvent st (tokenEvent c) =
      (if st.assembledContent ++ c ≠ [] then
        ensureAssistantMessage { st with assembledContent := st.assembledContent ++ c }
          (st.assembledContent ++ c)
      else { st with assembledContent := st.assembledContent ++ c }) := by
    unfold processEvent
    rw [if_pos htok]
    simp only [hcon, jsToStringU, jsToString]
  refine ⟨?_, ?_⟩
  · intro hid
    refine ⟨?_, ?_⟩
    · intro hne
      rw [hred, if_pos hne]
      unfold ensureAssistantMessage
      dsimp only
      rw [hid]
      exact ⟨rfl, rfl⟩
    · intro hz
      rw [hred, if_neg (by simp [hz])]
      exact ⟨rfl, hid⟩
  · intro i hi hne
    rw [hred, if_pos hne]
    unfold ensureAssistantMessage
    dsimp only
    rw [hi]
    dsimp only
    refine ⟨rfl, rfl, ?_⟩
    simp [updateMessageContent]

/-- Counterexample for C8 as stated: a first token event whose content is
empty appends nothing to the timeline and opens no assistant turn. -/
theorem c8_counterexample :
    (processEvent stInit (tokenEvent [])).messages = stInit.messages ∧
    (processEvent stInit (tokenEvent [])).messages.length ≠ stInit.messages.length + 1 ∧
    (processEvent stInit (tokenEvent [])).assistantMessageId = none := by
  decide

/-- Witness for C8 at a concrete first token with non-empty content. -/
theorem c8_token_rendering_witness :
    (processEvent stInit (tokenEvent (("您").data))).messages =
      [⟨0, MessageRole.assistant, ("您").data, MsgKind.text⟩] ∧
    (processEvent stInit (tokenEvent (("您").data))).assistantMessageId = some 0 := by
  have h := ((c8_token_rendering stInit (("您").data)).1 rfl).1 (by decide)
  refine ⟨?_, ?_⟩
  · rw [h.1]; rfl
  · exact h.2

/-- Claim C9 (confirmed): every proposal queued by an availability event has
a non-empty resource id and start time, promotion only copies the queued
value, and this well-formedness is preserved by every processed line; for a
well-formed pending proposal the confirm guard branch is unreachable, so a
confirm decision issues exactly one request. -/
theorem c9_pending_proposals_wellformed (st : ChatState) (hgood : stateGood st) :
    (∀ l, stateGood (processLine st l)) ∧
    (∀ p outcome, st.pendingProposal = some p →
      ((handleReservationDecision st RDAction.confirm outcome).2).length = 1) := by
  refine ⟨fun l => stateGood_processLine l hgood, fun p outcome hp => ?_⟩
  have hst : p.start_time ≠ [] := (hgood.2 p hp).2
  unfold handleReservationDecision
  rw [hp]
  dsimp only
  rw [if_neg (by simp), if_neg (by simp [hst])]
  rfl

/-- Witness for C9 at the concrete pending state. -/
theorem c9_pending_proposals_wellformed_witness :
    ((handleReservationDecision stPending RDAction.confirm (.fail ("x").data)).2).length
      = 1 := by
  have hg : stateGood stPending := by
    constructor
    · intro p hp
      exact Option.noConfusion hp
    · intro p hp
      have hp2 : some pDemo = some p := hp
      cases Option.some.inj hp2
      exact ⟨by decide, by decide⟩
  exact (c9_pending_proposals_wellformed stPending hg).2 pDemo (.fail ("x").data) rfl
